import Mathlib

/-!
Verification development for the pyWiFeS reduction utilities
(utils/pywifes_utils.py): a shallow embedding of
make_extracted_stellar_cube (the cube assembler),
extract_stellar_spectra_ascii (the ascii exporter) and
update_object_header (the header repair utility), together with
theorems settling the specification claims about them.

Strings are Lean String values, but every operation the Python code
performs on them (substring test, replace, split, prefix/suffix test)
is implemented here structurally over the underlying character list, so
that all definitions evaluate inside the kernel.
-/

namespace PywifesUtils

/-! ## String operations mirroring the Python ones -/

/-- Python substring containment: pat in s (on character lists). -/
def containsSub (pat : List Char) : List Char → Bool
  | [] => pat.isEmpty
  | c :: rest => pat.isPrefixOf (c :: rest) || containsSub pat rest

/-- Python membership test 'sub in s' on strings. -/
def strContains (s sub : String) : Bool :=
  containsSub sub.data s.data

/-- Fuel-driven worker for Python str.replace: scan left to right, at each
position either consume a non-overlapping occurrence of pat (emitting rep)
or copy one character.  Fuel = length of the scanned list suffices because
every step consumes at least one character. -/
def pyReplaceAux (pat rep : List Char) : Nat → List Char → List Char
  | 0, s => s
  | _ + 1, [] => []
  | fuel + 1, c :: rest =>
    if pat.isPrefixOf (c :: rest) && !pat.isEmpty then
      rep ++ pyReplaceAux pat rep fuel (rest.drop (pat.length - 1))
    else
      c :: pyReplaceAux pat rep fuel rest

/-- Python s.replace(old, new) for a non-empty pattern (the code only ever
replaces the non-empty patterns " " and a step suffix). -/
def pyReplace (pat rep s : List Char) : List Char :=
  pyReplaceAux pat rep s.length s

/-- Python s.replace(old, new) on strings. -/
def pyReplaceS (s pat rep : String) : String :=
  ⟨pyReplace pat.data rep.data s.data⟩

/-- Python s.startswith(p) (used for the glob dot-file exclusion). -/
def strStartsWith (s p : String) : Bool :=
  p.data.isPrefixOf s.data

/-- Python s.endswith(p). -/
def strEndsWith (s p : String) : Bool :=
  p.data.isSuffixOf s.data

/-- Split a character list at every occurrence of the separator character,
mirroring Python str.split(".") for the one-character separators used. -/
def splitOnChar (sep : Char) : List Char → List (List Char)
  | [] => [[]]
  | c :: rest =>
    match splitOnChar sep rest with
    | [] => [[]]
    | part :: parts => if c = sep then [] :: part :: parts else (c :: part) :: parts

/-! ## FITS headers as association lists -/

/-- A FITS header: an ordered list of key/value cards.  Only string-valued
cards are relevant to the code under verification. -/
abbrev Header := List (String × String)

/-- Header lookup (first matching card), i.e. hdr[key] when it succeeds. -/
def hGet : Header → String → Option String
  | [], _ => none
  | (k, v) :: rest, key => if k = key then some v else hGet rest key

/-- Header assignment hdr[key] = v: replace the first matching card,
append a new card when the key is absent. -/
def hSet : Header → String → String → Header
  | [], key, v => [(key, v)]
  | (k, w) :: rest, key, v =>
    if k = key then (key, v) :: rest else (k, w) :: hSet rest key v

/-! ## update_object_header (header repair utility) -/

/-- One file's pass of update_object_header (pywifes_utils.py lines
174-184): if OBJNAME is present and IMAGETYP equals "object", and OBJNAME
contains "exp" while OBJECT is non-empty, assign OBJNAME := OBJECT unless
print_only is set.  Accessing an absent IMAGETYP or OBJECT card raises
KeyError, modelled as none; otherwise the resulting header is returned. -/
def updateHeaderFile (h : Header) (print_only : Bool) : Option Header :=
  match hGet h "OBJNAME" with
  | none => some h
  | some objname =>
    match hGet h "IMAGETYP" with
    | none => none
    | some imagetyp =>
      if imagetyp = "object" then
        if containsSub "exp".data objname.data then
          match hGet h "OBJECT" with
          | none => none
          | some obj =>
            if obj ≠ "" then
              (if print_only then some h else some (hSet h "OBJNAME" obj))
            else some h
        else some h
      else some h

/-- The night-level scan of update_object_header: process the sorted file
list in order; a KeyError aborts the scan, leaving the crashing file and
every later file untouched.  Returns the final headers of all files plus
a flag recording whether the scan crashed. -/
def update_object_header (files : List Header) (print_only : Bool) :
    List Header × Bool :=
  match files with
  | [] => ([], false)
  | h :: rest =>
    match updateHeaderFile h print_only with
    | none => (h :: rest, true)
    | some h2 =>
      ((h2 :: (update_object_header rest print_only).1),
        (update_object_header rest print_only).2)

/-- The three repair conditions of the specification, as a decidable test
on one header: type-tag equals "object", object-name contains "exp",
object field non-empty. -/
def repairCond (h : Header) : Bool :=
  (hGet h "IMAGETYP" == some "object") &&
    (match hGet h "OBJNAME" with
     | some objname => containsSub "exp".data objname.data
     | none => false) &&
    (match hGet h "OBJECT" with
     | some obj => obj != ""
     | none => false)

/-- The per-file effect the specification describes: copy OBJECT into
OBJNAME exactly when the three repair conditions hold. -/
def repairSpec (h : Header) : Header :=
  if repairCond h then
    match hGet h "OBJECT" with
    | some obj => hSet h "OBJNAME" obj
    | none => h
  else h

/-! ## The environment: filesystem, FITS reader, extraction routine

The filesystem is a list of file paths given as component lists; the FITS
header reader (fits.getheader / fits.open) and the external extraction
routine (process_stellar.read_and_find_star_p08 followed by
weighted_extract_spectrum) are oracles keyed by the joined path string.
A none result models the corresponding Python call raising. -/

structure Env where
  fs : List (List String)
  header : String → Option Header
  extract : String → Option (List Int × List Int × List Int)

/-- os.path.join on path components (the code always joins with "/"). -/
def joinPath (cs : List String) : String :=
  String.intercalate "/" cs

/-- Observable actions of one assembler run, used to state in which order
the code performs header reads, extractions and writes. -/
inductive Event where
  | readHeader (f : String)
  | extract (f : String)
  | write (f : String)
deriving DecidableEq

/-- The ways a run can raise, mirroring the unhandled Python exceptions:
IndexError from steps[0] on an empty step list, FileNotFoundError from
fits.getheader, KeyError from a header lookup, an error inside the
external extraction routine, and UnboundLocalError from reading
output_filename when no channel branch assigned it. -/
inductive ObError where
  | indexError
  | fileNotFound (f : String)
  | headerKeyError (k : String)
  | extractionError (f : String)
  | unboundLocal
deriving DecidableEq

/-- One data HDU of the assembled cube: the three equal-length columns of
the binary table plus the REDSTEP card naming the source step. -/
structure DataSection where
  wave : List Int
  spectrum : List Int
  sigma : List Int
  redstep : String
deriving DecidableEq

/-- The assembled artifact: the PrimaryHDU carrying the copied header,
followed by the data sections in the order they were appended. -/
structure Artifact where
  primary : Header
  sections : List DataSection
deriving DecidableEq

/-! ## make_extracted_stellar_cube (cube assembler) -/

/-- Step-file name construction, pywifes_utils.py line 111:
ob + ".p" + step + ".fits". -/
def stepFileName (ob step : String) : String :=
  ob ++ ".p" ++ step ++ ".fits"

/-- The per-step extraction loop (lines 124-135): for each (file, step)
pair invoke the extraction routine and build a tagged data section; a
raising extraction aborts the loop.  Returns the extraction events that
happened and either the sections or the first error. -/
def extractSections (env : Env) :
    List (String × String) → List Event × Except ObError (List DataSection)
  | [] => ([], Except.ok [])
  | (f, step) :: rest =>
    match env.extract f with
    | none => ([Event.extract f], Except.error (ObError.extractionError f))
    | some (wave, spectrum, sig) =>
      match extractSections env rest with
      | (evs, Except.error e) => (Event.extract f :: evs, Except.error e)
      | (evs, Except.ok secs) =>
        (Event.extract f :: evs, Except.ok (⟨wave, spectrum, sig, step⟩ :: secs))

/-- The channel branch (lines 137-141): if the red marker occurs in the
observation key use the red name, else if the blue marker occurs use the
blue name, else output_filename keeps whatever value the Python local
variable had before (none when never assigned). -/
def channelFilename (ob rName bName : String) (last : Option String) :
    Option String :=
  if strContains ob "T2m3wr" then some rName
  else if strContains ob "T2m3wb" then some bName
  else last

/-- Processing of one observation key (lines 109-148): build the step-file
names, read the first file's header, take OBJNAME with spaces removed,
extract one section per step, pick the output name by channel marker, and
write.  last carries the value of the Python local output_filename left
over from the previous loop iteration.  Returns the events, the updated
output_filename local, and either (written name, artifact) or the raised
error. -/
def processObs (env : Env) (night : String) (steps : List String)
    (ob : String) (last : Option String) :
    List Event × Option String × Except ObError (String × Artifact) :=
  let fits_files := steps.map (stepFileName ob)
  match fits_files.head? with
  | none => ([], last, Except.error ObError.indexError)
  | some f0 =>
    match env.header f0 with
    | none => ([Event.readHeader f0], last, Except.error (ObError.fileNotFound f0))
    | some hdr =>
      match hGet hdr "OBJNAME" with
      | none =>
        ([Event.readHeader f0], last, Except.error (ObError.headerKeyError "OBJNAME"))
      | some objname =>
        let obj_id := pyReplaceS objname " " ""
        match extractSections env (fits_files.zip steps) with
        | (evs, Except.error e) =>
          (Event.readHeader f0 :: evs, last, Except.error e)
        | (evs, Except.ok secs) =>
          match channelFilename ob (night ++ "_" ++ obj_id ++ "_r.fits")
              (night ++ "_" ++ obj_id ++ "_b.fits") last with
          | none => (Event.readHeader f0 :: evs, none, Except.error ObError.unboundLocal)
          | some fn =>
            (Event.readHeader f0 :: (evs ++ [Event.write fn]), some fn,
              Except.ok (fn, ⟨hdr, secs⟩))

/-- The discovery glob (line 101): glob.glob(data_dir/*/ *steps[0].fits)
matches exactly the four-component paths root/night/dir/file whose file
name ends with steps[0] + ".fits", excluding dot-directories and
dot-files as glob does. -/
def globFirstStep (env : Env) (root night s0 : String) : List String :=
  (env.fs.filter (fun p =>
    match p with
    | [r, n, d, f] =>
      r == root && n == night && !(strStartsWith d ".") && !(strStartsWith f ".") &&
        strEndsWith f (s0 ++ ".fits")
    | _ => false)).map joinPath

/-- Key derivation (line 104): strip every occurrence of ".p" + steps[0] +
".fits" from each discovered path. -/
def uniqueObs (env : Env) (root night s0 : String) : List String :=
  (globFirstStep env root night s0).map
    (fun ob => pyReplaceS ob (".p" ++ s0 ++ ".fits") "")

/-- The observation loop (lines 109-148): process the keys in order,
threading the output_filename local; the first raised error aborts the
whole loop (there is no per-observation handler), keeping only the
artifacts already written. -/
def runObs (env : Env) (night : String) (steps : List String) :
    List String → Option String →
      List Event × List (String × Artifact) × Option (String × ObError)
  | [], _ => ([], [], none)
  | ob :: rest, last =>
    match processObs env night steps ob last with
    | (evs, _, Except.error e) => (evs, [], some (ob, e))
    | (evs, last2, Except.ok (fn, art)) =>
      (evs ++ (runObs env night steps rest last2).1,
        (fn, art) :: (runObs env night steps rest last2).2.1,
        (runObs env night steps rest last2).2.2)

/-- make_extracted_stellar_cube (lines 73-148): discover the keys from the
first step's files and run the loop.  Returns the events, the written
(name, artifact) pairs in write order, and the aborting error if any. -/
def make_extracted_stellar_cube (env : Env) (root night : String)
    (steps : List String) :
    List Event × List (String × Artifact) × Option (String × ObError) :=
  match steps.head? with
  | none => ([], [], some ("", ObError.indexError))
  | some s0 => runObs env night steps (uniqueObs env root night s0) none

/-! ## The output store (the extracted_cubes_1d directory) -/

/-- The durable store of written cubes, keyed by full output path. -/
abbrev Store := String → Option Artifact

/-- hdu_list.writeto(path, overwrite=True) (line 148): replace whatever is
at the path. -/
def writeArtifact (s : Store) (path : String) (a : Artifact) : Store :=
  fun k => if k = path then some a else s k

/-- The full output path (lines 93 and 143):
root/night/extracted_cubes_1d/name. -/
def outPath (root night fn : String) : String :=
  root ++ "/" ++ night ++ "/extracted_cubes_1d/" ++ fn

/-- Apply all writes of a run to the store, in order. -/
def writeAll (root night : String) :
    List (String × Artifact) → Store → Store
  | [], s => s
  | (fn, a) :: rest, s =>
    writeAll root night rest (writeArtifact s (outPath root night fn) a)

/-- The last artifact a write list leaves at a given path, if any. -/
def lastWrite (root night : String) :
    List (String × Artifact) → String → Option Artifact
  | [], _ => none
  | (fn, a) :: rest, k =>
    match lastWrite root night rest k with
    | some b => some b
    | none => if k = outPath root night fn then some a else none

/-! ## extract_stellar_spectra_ascii (ascii exporter) -/

/-- The step tag of a file path (line 44): fl.split(".")[-2][1:], i.e. the
second-to-last dot-delimited component with its first character dropped;
none models the IndexError raised when the path has no dot. -/
def asciiStepOf (fl : String) : Option String :=
  match (splitOnChar '.' fl.data).reverse with
  | _ :: s :: _ => some ⟨s.drop 1⟩
  | _ => none

/-- The rows np.savetxt writes for np.transpose([wave, spectrum])
(line 70): one row per sample, each row the two columns (axis, value). -/
def savetxtTranspose (wave spectrum : List Int) : List (List Int) :=
  (wave.zip spectrum).map (fun p => [p.1, p.2])

/-- Processing of one walked file by extract_stellar_spectra_ascii
(lines 42-70): compute the step tag, test the step filter, read OBJNAME
and RUN, extract, pick the channel name (same unset-on-no-marker branch
as the assembler, except the local is reassigned to its space-underscored
form), and write the two-column table.  Returns the updated filename
local and either none (file skipped), or (output name, table rows), or
the raised error. -/
def asciiExportFile (env : Env) (night : String) (steps : List String)
    (path name : String) (last : Option String) :
    Option String × Except ObError (Option (String × List (List Int))) :=
  let fl := path ++ "/" ++ name
  match asciiStepOf fl with
  | none => (last, Except.error ObError.indexError)
  | some step =>
    if steps.contains step && strEndsWith fl (step ++ ".fits") then
      match env.header fl with
      | none => (last, Except.error (ObError.fileNotFound fl))
      | some hdr =>
        match hGet hdr "OBJNAME" with
        | none => (last, Except.error (ObError.headerKeyError "OBJNAME"))
        | some objectid =>
          match hGet hdr "RUN" with
          | none => (last, Except.error (ObError.headerKeyError "RUN"))
          | some _ =>
            match env.extract fl with
            | none => (last, Except.error (ObError.extractionError fl))
            | some (wave, spectrum, _) =>
              match channelFilename name
                  (night ++ "_" ++ objectid ++ "_" ++ step ++ "_r.dat")
                  (night ++ "_" ++ objectid ++ "_" ++ step ++ "_b.dat") last with
              | none => (none, Except.error ObError.unboundLocal)
              | some fn0 =>
                let fn := pyReplaceS fn0 " " "_"
                (some fn, Except.ok (some (fn, savetxtTranspose wave spectrum)))
    else (last, Except.ok none)

/-! ## Concrete environments used to exercise the model -/

/-- A night with one observation whose object id carries a space. -/
def envSpace : Env :=
  { fs := [["root", "20190101", "d", "obs1.T2m3wr-x.p08.fits"]],
    header := fun _ => some [("OBJNAME", "HD 1234")],
    extract := fun _ => some ([1], [2], [3]) }

/-- A single red-channel observation reduced with one step. -/
def envOne : Env :=
  { fs := [["root", "20190101", "d", "obs1.T2m3wr-x.p08.fits"]],
    header := fun _ => some [("OBJNAME", "HD 1234")],
    extract := fun _ => some ([1], [2], [3]) }

/-- An observation key carrying both channel markers. -/
def envBoth : Env :=
  { fs := [["root", "n", "d", "xT2m3wrT2m3wb.p08.fits"]],
    header := fun _ => some [("OBJNAME", "X")],
    extract := fun _ => some ([1], [2], [3]) }

/-- Two observations; the extraction routine raises on the first one's
second step-file, while the second observation is fully extractable. -/
def envTwo : Env :=
  { fs := [["root", "n", "d", "aT2m3wr.p08.fits"],
           ["root", "n", "d", "bT2m3wr.p08.fits"]],
    header := fun _ => some [("OBJNAME", "X")],
    extract := fun f => if f = "root/n/d/aT2m3wr.p09.fits" then none
                        else some ([1], [2], [3]) }

/-- First-step files directly in the night directory and two levels deep,
but none at the single depth the glob pattern inspects. -/
def envDepth : Env :=
  { fs := [["root", "20190101", "obs1.T2m3wr-x.p08.fits"],
           ["root", "20190101", "a", "b", "f.p08.fits"]],
    header := fun _ => some [("OBJNAME", "HD 1234")],
    extract := fun _ => some ([1], [2], [3]) }

/-- One first-step file at the depth the glob pattern inspects. -/
def envFlat : Env :=
  { fs := [["root", "20190101", "d", "obs1.T2m3wr-x.p08.fits"]],
    header := fun _ => some [("OBJNAME", "HD 1234")],
    extract := fun _ => some ([1], [2], [3]) }

/-- An ascii-export night: one matching red-channel file whose header has
the OBJNAME and RUN cards the exporter reads. -/
def envAscii : Env :=
  { fs := [["root", "n", "o.T2m3wr.p08.fits"]],
    header := fun _ => some [("OBJNAME", "HD 1"), ("RUN", "7")],
    extract := fun _ => some ([10, 20], [3, 4], [1, 1]) }

/-- A single observation whose key contains neither channel marker. -/
def envNoMarker : Env :=
  { fs := [["root", "n", "d", "plain.p08.fits"]],
    header := fun _ => some [("OBJNAME", "X")],
    extract := fun _ => some ([1], [2], [3]) }

/-- A header satisfying all three repair conditions. -/
def hdrRepair : Header :=
  [("IMAGETYP", "object"), ("OBJNAME", "exp 2.0"), ("OBJECT", "HD 1")]

/-- A header failing the type-tag repair condition. -/
def hdrSkip : Header :=
  [("IMAGETYP", "flat"), ("OBJNAME", "exp"), ("OBJECT", "X")]

/-! ## Lemmas about the header repair utility -/

lemma updateHeaderFile_false_eq {h h2 : Header}
    (hu : updateHeaderFile h false = some h2) : h2 = repairSpec h := by
  unfold updateHeaderFile at hu
  unfold repairSpec repairCond
  cases hobj : hGet h "OBJNAME" with
  | none =>
    simp only [hobj] at hu ⊢
    simp_all
  | some objname =>
    simp only [hobj] at hu ⊢
    cases him : hGet h "IMAGETYP" with
    | none => simp [him] at hu
    | some imagetyp =>
      simp only [him] at hu ⊢
      by_cases hobject : imagetyp = "object"
      · subst hobject
        simp only [if_true] at hu
        by_cases hexp : containsSub "exp".data objname.data
        · simp only [hexp, if_true] at hu ⊢
          cases hob : hGet h "OBJECT" with
          | none => simp [hob] at hu
          | some obj =>
            simp only [hob] at hu ⊢
            by_cases hne : obj = ""
            · subst hne; simp_all
            · simp_all
        · simp_all
      · simp_all

lemma updateHeaderFile_true_eq {h h2 : Header}
    (hu : updateHeaderFile h true = some h2) : h2 = h := by
  unfold updateHeaderFile at hu
  cases hobj : hGet h "OBJNAME" with
  | none => simp_all
  | some objname =>
    simp only [hobj] at hu
    cases him : hGet h "IMAGETYP" with
    | none => simp [him] at hu
    | some imagetyp =>
      simp only [him] at hu
      by_cases hobject : imagetyp = "object"
      · subst hobject
        simp only [if_true] at hu
        by_cases hexp : containsSub "exp".data objname.data
        · simp only [hexp, if_true] at hu
          cases hob : hGet h "OBJECT" with
          | none => simp [hob] at hu
          | some obj => by_cases hne : obj = "" <;> simp_all
        · simp_all
      · simp_all

/-- C8: the header repair utility, run with writing enabled and completing
without a KeyError, copies the OBJECT card into the OBJNAME card for
exactly those files whose IMAGETYP equals "object", whose OBJNAME
contains "exp" and whose OBJECT is non-empty, and leaves every file
failing one of the three conditions unmodified. -/
theorem c8_header_repair (files : List Header)
    (hc : (update_object_header files false).2 = false) :
    (update_object_header files false).1 = files.map repairSpec := by
  induction files with
  | nil => simp [update_object_header]
  | cons h rest ih =>
    unfold update_object_header at hc ⊢
    cases hu : updateHeaderFile h false with
    | none => simp [hu] at hc
    | some h2 =>
      simp only [hu] at hc ⊢
      rw [List.map_cons, updateHeaderFile_false_eq hu, ih hc]

/-- C8 witness: a two-file night in which the first file satisfies all
three conditions and the second fails the type-tag condition. -/
theorem c8_header_repair_witness :
    (update_object_header [hdrRepair, hdrSkip] false).2 = false ∧
      (update_object_header [hdrRepair, hdrSkip] false).1 =
        [hdrRepair, hdrSkip].map repairSpec :=
  ⟨by decide, c8_header_repair [hdrRepair, hdrSkip] (by decide)⟩

/-- C9: in dry-run mode (print_only set) the header repair utility leaves
every header of every file unchanged, whether or not the repair
conditions hold and whether or not the scan finishes. -/
theorem c9_dry_run (files : List Header) :
    (update_object_header files true).1 = files := by
  induction files with
  | nil => simp [update_object_header]
  | cons h rest ih =>
    unfold update_object_header
    cases hu : updateHeaderFile h true with
    | none => simp
    | some h2 => simp [updateHeaderFile_true_eq hu, ih]

/-! ## Lemmas about the extraction loop and the per-observation pass -/

lemma extractSections_ok {env : Env} {l : List (String × String)}
    {evs : List Event} {secs : List DataSection}
    (h : extractSections env l = (evs, Except.ok secs)) :
    secs.map DataSection.redstep = l.map Prod.snd ∧ secs.length = l.length ∧
      ∀ f ∈ l.map Prod.fst, Event.extract f ∈ evs := by
  induction l generalizing evs secs with
  | nil =>
    simp only [extractSections, Prod.mk.injEq, Except.ok.injEq] at h
    obtain ⟨h1, h2⟩ := h
    subst h1; subst h2
    simp
  | cons p rest ih =>
    obtain ⟨f, step⟩ := p
    simp only [extractSections] at h
    cases he : env.extract f with
    | none => simp [he] at h
    | some v =>
      obtain ⟨w, s, g⟩ := v
      simp only [he] at h
      cases hr : extractSections env rest with
      | mk evs1 r1 =>
        rw [hr] at h
        cases r1 with
        | error e => simp at h
        | ok secs1 =>
          simp only [Prod.mk.injEq, Except.ok.injEq] at h
          obtain ⟨h1, h2⟩ := h
          subst h1; subst h2
          obtain ⟨ih1, ih2, ih3⟩ := ih hr
          refine ⟨by simp [ih1], by simp [ih2], ?_⟩
          intro f2 hf2
          simp only [List.map_cons, List.mem_cons] at hf2
          rcases hf2 with hf2 | hf2
          · subst hf2; exact List.mem_cons_self _ _
          · exact List.mem_cons_of_mem _ (ih3 f2 hf2)

lemma extractSections_all_ok {env : Env} (l : List (String × String))
    (h : ∀ p ∈ l, ∃ w s g, env.extract p.1 = some (w, s, g)) :
    ∃ evs secs, extractSections env l = (evs, Except.ok secs) := by
  induction l with
  | nil => exact ⟨[], [], rfl⟩
  | cons p rest ih =>
    obtain ⟨f, step⟩ := p
    obtain ⟨w, s, g, he⟩ := h (f, step) (List.mem_cons_self _ _)
    obtain ⟨evs1, secs1, hr⟩ := ih (fun q hq => h q (List.mem_cons_of_mem _ hq))
    exact ⟨Event.extract f :: evs1, ⟨w, s, g, step⟩ :: secs1,
      by simp [extractSections, he, hr]⟩

lemma processObs_ok_structure {env : Env} {night : String} {steps : List String}
    {ob : String} {last : Option String} {evs : List Event} {l2 : Option String}
    {fn : String} {art : Artifact}
    (hp : processObs env night steps ob last = (evs, l2, Except.ok (fn, art))) :
    art.sections.map DataSection.redstep = steps ∧
      art.sections.length = steps.length ∧
      ∃ s0 srest hdr, steps = s0 :: srest ∧
        env.header (stepFileName ob s0) = some hdr ∧ art.primary = hdr := by
  cases steps with
  | nil => simp [processObs] at hp
  | cons s0 srest =>
    simp only [processObs, List.map_cons, List.head?_cons] at hp
    cases hh : env.header (stepFileName ob s0) with
    | none => simp [hh] at hp
    | some hdr =>
      simp only [hh] at hp
      cases hobj : hGet hdr "OBJNAME" with
      | none => simp [hobj] at hp
      | some objname =>
        simp only [hobj] at hp
        cases hex : extractSections env
            ((stepFileName ob s0 :: List.map (stepFileName ob) srest).zip
              (s0 :: srest)) with
        | mk evs1 r1 =>
          rw [hex] at hp
          cases r1 with
          | error e => simp at hp
          | ok secs =>
            cases hcf : channelFilename ob
                (night ++ "_" ++ pyReplaceS objname " " "" ++ "_r.fits")
                (night ++ "_" ++ pyReplaceS objname " " "" ++ "_b.fits") last with
            | none => simp [hcf] at hp
            | some fn1 =>
              simp only [hcf, Prod.mk.injEq, Except.ok.injEq] at hp
              obtain ⟨-, -, hfn, hart⟩ := hp
              obtain ⟨he1, he2, -⟩ := extractSections_ok hex
              subst hart
              refine ⟨?_, ?_, s0, srest, hdr, rfl, hh, rfl⟩
              · rw [he1]
                exact List.map_snd_zip _ _ (by simp)
              · rw [he2]
                simp [List.length_zip]

lemma runObs_mem {env : Env} {night : String} {steps : List String}
    {obs : List String} {last : Option String} {fn : String} {art : Artifact}
    (h : (fn, art) ∈ (runObs env night steps obs last).2.1) :
    ∃ ob last2 evs l2,
      processObs env night steps ob last2 = (evs, l2, Except.ok (fn, art)) := by
  induction obs generalizing last with
  | nil => simp [runObs] at h
  | cons ob rest ih =>
    simp only [runObs] at h
    cases hp : processObs env night steps ob last with
    | mk evs0 q =>
      obtain ⟨lst2, r0⟩ := q
      rw [hp] at h
      cases r0 with
      | error e => simp at h
      | ok out =>
        obtain ⟨fn0, art0⟩ := out
        simp only [List.mem_cons] at h
        rcases h with h | h
        · obtain ⟨h1, h2⟩ := Prod.mk.injEq .. ▸ h
          exact ⟨ob, last, evs0, lst2, by rw [hp, h1, h2]⟩
        · exact ih h

/-- C1: every artifact the cube assembler writes for a successfully
processed observation key consists of one leading metadata section, a
copy of the first step-file's header, followed by exactly one data
section per configured step, in configured step order, each carrying a
REDSTEP tag naming its source step identifier. -/
theorem c1_cube_structure (env : Env) (root night : String)
    (steps : List String) (fn : String) (art : Artifact)
    (h : (fn, art) ∈ (make_extracted_stellar_cube env root night steps).2.1) :
    art.sections.map DataSection.redstep = steps ∧
      art.sections.length = steps.length ∧
      ∃ ob s0 srest hdr, steps = s0 :: srest ∧
        env.header (stepFileName ob s0) = some hdr ∧ art.primary = hdr := by
  unfold make_extracted_stellar_cube at h
  cases steps with
  | nil => simp at h
  | cons s0 srest =>
    simp only [List.head?_cons] at h
    obtain ⟨ob, last2, evs, l2, hp⟩ := runObs_mem h
    obtain ⟨h1, h2, _, _, hdr, heq, hh, hprim⟩ := processObs_ok_structure hp
    obtain ⟨rfl, -⟩ := List.cons.injEq .. ▸ heq
    exact ⟨h1, h2, ob, s0, srest, hdr, rfl, hh, hprim⟩

/-- C1 witness: a one-step night whose single observation is assembled
successfully. -/
theorem c1_cube_structure_witness :
    (("20190101_HD1234_r.fits",
        (⟨[("OBJNAME", "HD 1234")], [⟨[1], [2], [3], "08"⟩]⟩ : Artifact)) ∈
      (make_extracted_stellar_cube envOne "root" "20190101" ["08"]).2.1) ∧
      ((⟨[("OBJNAME", "HD 1234")], [⟨[1], [2], [3], "08"⟩]⟩ :
          Artifact).sections.map DataSection.redstep = ["08"] ∧
        (⟨[("OBJNAME", "HD 1234")], [⟨[1], [2], [3], "08"⟩]⟩ :
          Artifact).sections.length = (["08"] : List String).length ∧
        ∃ ob s0 srest hdr, (["08"] : List String) = s0 :: srest ∧
          envOne.header (stepFileName ob s0) = some hdr ∧
          (⟨[("OBJNAME", "HD 1234")], [⟨[1], [2], [3], "08"⟩]⟩ :
            Artifact).primary = hdr) :=
  ⟨by decide,
    c1_cube_structure envOne "root" "20190101" ["08"] "20190101_HD1234_r.fits"
      ⟨[("OBJNAME", "HD 1234")], [⟨[1], [2], [3], "08"⟩]⟩ (by decide)⟩

/-- C2 counterexample: on night 20190101 with object id "HD 1234" on a
red-channel observation, the cube assembler names the output
20190101_HD1234_r.fits, deleting the space rather than replacing it with
an underscore, so the claimed name 20190101_HD_1234_r.fits is never
produced. -/
theorem c2_space_counterexample :
    (make_extracted_stellar_cube envSpace "root" "20190101"
        ["08", "09", "10"]).2.1.map Prod.fst = ["20190101_HD1234_r.fits"] ∧
      ("20190101_HD1234_r.fits" : String) ≠ "20190101_HD_1234_r.fits" := by
  constructor
  · decide
  · decide

lemma processObs_ok_name {env : Env} {night : String} {steps : List String}
    {ob : String} {last : Option String} {evs : List Event}
    {l2 : Option String} {fn : String} {art : Artifact}
    (hp : processObs env night steps ob last = (evs, l2, Except.ok (fn, art))) :
    ∃ objname, hGet art.primary "OBJNAME" = some objname ∧
      ((strContains ob "T2m3wr" = true ∧
          fn = night ++ "_" ++ pyReplaceS objname " " "" ++ "_r.fits") ∨
        (strContains ob "T2m3wr" = false ∧ strContains ob "T2m3wb" = true ∧
          fn = night ++ "_" ++ pyReplaceS objname " " "" ++ "_b.fits") ∨
        (strContains ob "T2m3wr" = false ∧ strContains ob "T2m3wb" = false ∧
          last = some fn)) := by
  cases steps with
  | nil => simp [processObs] at hp
  | cons s0 srest =>
    simp only [processObs, List.map_cons, List.head?_cons] at hp
    cases hh : env.header (stepFileName ob s0) with
    | none => simp [hh] at hp
    | some hdr =>
      simp only [hh] at hp
      cases hobj : hGet hdr "OBJNAME" with
      | none => simp [hobj] at hp
      | some objname =>
        simp only [hobj] at hp
        cases hex : extractSections env
            ((stepFileName ob s0 :: List.map (stepFileName ob) srest).zip
              (s0 :: srest)) with
        | mk evs1 r1 =>
          rw [hex] at hp
          cases r1 with
          | error e => simp at hp
          | ok secs =>
            simp only [channelFilename] at hp
            by_cases hr : strContains ob "T2m3wr"
            · simp only [hr, if_true, Prod.mk.injEq, Except.ok.injEq] at hp
              obtain ⟨-, -, hfn, hart⟩ := hp
              subst hart
              exact ⟨objname, hobj, Or.inl ⟨hr, hfn.symm⟩⟩
            · simp only [hr, if_false, Bool.false_eq_true] at hp
              by_cases hb : strContains ob "T2m3wb"
              · simp only [hb, if_true, Prod.mk.injEq, Except.ok.injEq] at hp
                obtain ⟨-, -, hfn, hart⟩ := hp
                subst hart
                exact ⟨objname, hobj,
                  Or.inr (Or.inl ⟨by simpa using hr, hb, hfn.symm⟩)⟩
              · simp only [hb, if_false, Bool.false_eq_true] at hp
                cases last with
                | none => simp at hp
                | some fn0 =>
                  simp only [Prod.mk.injEq, Except.ok.injEq] at hp
                  obtain ⟨-, -, hfn, hart⟩ := hp
                  subst hart
                  exact ⟨objname, hobj,
                    Or.inr (Or.inr ⟨by simpa using hr, by simpa using hb,
                      by rw [hfn]⟩)⟩

/-- C2 (amended): for every observation the cube assembler processes
successfully, the output name is night, object id and channel suffix
joined by underscores, where every space in the object identifier is
deleted (not replaced by an underscore); the red marker is tested first,
and when neither marker occurs the name left over from the previous
iteration is reused. -/
theorem c2_output_name (env : Env) (night : String) (steps : List String)
    (ob : String) (last : Option String) (evs : List Event)
    (l2 : Option String) (fn : String) (art : Artifact)
    (hp : processObs env night steps ob last = (evs, l2, Except.ok (fn, art))) :
    ∃ objname, hGet art.primary "OBJNAME" = some objname ∧
      ((strContains ob "T2m3wr" = true ∧
          fn = night ++ "_" ++ pyReplaceS objname " " "" ++ "_r.fits") ∨
        (strContains ob "T2m3wr" = false ∧ strContains ob "T2m3wb" = true ∧
          fn = night ++ "_" ++ pyReplaceS objname " " "" ++ "_b.fits") ∨
        (strContains ob "T2m3wr" = false ∧ strContains ob "T2m3wb" = false ∧
          last = some fn)) :=
  processObs_ok_name hp

/-- C2 witness: the observation of envSpace is assembled successfully and
its name is built from the space-stripped object id. -/
theorem c2_output_name_witness :
    processObs envSpace "20190101" ["08"] "root/20190101/d/obs1.T2m3wr-x" none =
        ([Event.readHeader "root/20190101/d/obs1.T2m3wr-x.p08.fits",
          Event.extract "root/20190101/d/obs1.T2m3wr-x.p08.fits",
          Event.write "20190101_HD1234_r.fits"],
          some "20190101_HD1234_r.fits",
          Except.ok ("20190101_HD1234_r.fits",
            ⟨[("OBJNAME", "HD 1234")], [⟨[1], [2], [3], "08"⟩]⟩)) ∧
      ∃ objname,
        hGet (⟨[("OBJNAME", "HD 1234")],
            [⟨[1], [2], [3], "08"⟩]⟩ : Artifact).primary "OBJNAME" =
          some objname ∧
        ((strContains "root/20190101/d/obs1.T2m3wr-x" "T2m3wr" = true ∧
            "20190101_HD1234_r.fits" =
              "20190101" ++ "_" ++ pyReplaceS objname " " "" ++ "_r.fits") ∨
          (strContains "root/20190101/d/obs1.T2m3wr-x" "T2m3wr" = false ∧
            strContains "root/20190101/d/obs1.T2m3wr-x" "T2m3wb" = true ∧
            "20190101_HD1234_r.fits" =
              "20190101" ++ "_" ++ pyReplaceS objname " " "" ++ "_b.fits") ∨
          (strContains "root/20190101/d/obs1.T2m3wr-x" "T2m3wr" = false ∧
            strContains "root/20190101/d/obs1.T2m3wr-x" "T2m3wb" = false ∧
            (none : Option String) = some "20190101_HD1234_r.fits")) :=
  ⟨rfl,
    c2_output_name envSpace "20190101" ["08"] "root/20190101/d/obs1.T2m3wr-x"
      none
      [Event.readHeader "root/20190101/d/obs1.T2m3wr-x.p08.fits",
        Event.extract "root/20190101/d/obs1.T2m3wr-x.p08.fits",
        Event.write "20190101_HD1234_r.fits"]
      (some "20190101_HD1234_r.fits") "20190101_HD1234_r.fits"
      ⟨[("OBJNAME", "HD 1234")], [⟨[1], [2], [3], "08"⟩]⟩ rfl⟩

/-- C3 counterexample: a key containing both channel markers is classified
as red and the run completes without any error, and a key containing no
marker leaves the name branch unassigned (none) — in neither case is any
explicit classification error raised, because the code has no such
error at all. -/
theorem c3_classification_counterexample :
    (make_extracted_stellar_cube envBoth "root" "n" ["08"]).2.1.map Prod.fst =
        ["n_X_r.fits"] ∧
      (make_extracted_stellar_cube envBoth "root" "n" ["08"]).2.2 = none ∧
      channelFilename "xT2m3wrT2m3wb" "R" "B" none = some "R" ∧
      channelFilename "plain" "R" "B" none = none := by
  refine ⟨?_, ?_, ?_, ?_⟩ <;> rfl

/-- C3 (amended): classification is by two ordered substring tests with no
error case: a key containing the red marker gets the red suffix (even if
the blue marker also occurs), a key containing only the blue marker gets
the blue suffix, and a key containing neither marker leaves the output
name whatever it was before — so a successful observation either carries
a marker-derived name or silently reuses the previous iteration's name,
and no classification error exists. -/
theorem c3_classification (env : Env) (night : String) (steps : List String)
    (ob : String) (last : Option String) (evs : List Event)
    (l2 : Option String) (res : Except ObError (String × Artifact))
    (hp : processObs env night steps ob last = (evs, l2, res)) :
    (∀ fn art, res = Except.ok (fn, art) →
        (strContains ob "T2m3wr" = true ∧
          ∃ oid, fn = night ++ "_" ++ oid ++ "_r.fits") ∨
        (strContains ob "T2m3wr" = false ∧ strContains ob "T2m3wb" = true ∧
          ∃ oid, fn = night ++ "_" ++ oid ++ "_b.fits") ∨
        (strContains ob "T2m3wr" = false ∧ strContains ob "T2m3wb" = false ∧
          last = some fn)) ∧
      (strContains ob "T2m3wr" = false → strContains ob "T2m3wb" = false →
        last = none → ∀ fn art, res ≠ Except.ok (fn, art)) := by
  constructor
  · intro fn art hres
    subst hres
    obtain ⟨objname, -, hcase⟩ := processObs_ok_name hp
    rcases hcase with ⟨h1, h2⟩ | ⟨h1, h2, h3⟩ | ⟨h1, h2, h3⟩
    · exact Or.inl ⟨h1, _, h2⟩
    · exact Or.inr (Or.inl ⟨h1, h2, _, h3⟩)
    · exact Or.inr (Or.inr ⟨h1, h2, h3⟩)
  · intro hr hb hlast fn art hres
    subst hres
    obtain ⟨objname, -, hcase⟩ := processObs_ok_name hp
    rcases hcase with ⟨h1, -⟩ | ⟨-, h1, -⟩ | ⟨-, -, h1⟩
    · rw [hr] at h1; cases h1
    · rw [hb] at h1; cases h1
    · rw [hlast] at h1; cases h1

/-- C3 witness: the both-marker observation of envBoth is classified red
by the ordered substring tests. -/
theorem c3_classification_witness :
    processObs envBoth "n" ["08"] "root/n/d/xT2m3wrT2m3wb" none =
        ([Event.readHeader "root/n/d/xT2m3wrT2m3wb.p08.fits",
          Event.extract "root/n/d/xT2m3wrT2m3wb.p08.fits",
          Event.write "n_X_r.fits"],
          some "n_X_r.fits",
          Except.ok ("n_X_r.fits",
            ⟨[("OBJNAME", "X")], [⟨[1], [2], [3], "08"⟩]⟩)) ∧
      ((∀ fn art,
          (Except.ok ("n_X_r.fits",
              (⟨[("OBJNAME", "X")], [⟨[1], [2], [3], "08"⟩]⟩ : Artifact)) :
            Except ObError (String × Artifact)) = Except.ok (fn, art) →
          (strContains "root/n/d/xT2m3wrT2m3wb" "T2m3wr" = true ∧
            ∃ oid, fn = "n" ++ "_" ++ oid ++ "_r.fits") ∨
          (strContains "root/n/d/xT2m3wrT2m3wb" "T2m3wr" = false ∧
            strContains "root/n/d/xT2m3wrT2m3wb" "T2m3wb" = true ∧
            ∃ oid, fn = "n" ++ "_" ++ oid ++ "_b.fits") ∨
          (strContains "root/n/d/xT2m3wrT2m3wb" "T2m3wr" = false ∧
            strContains "root/n/d/xT2m3wrT2m3wb" "T2m3wb" = false ∧
            (none : Option String) = some fn)) ∧
        (strContains "root/n/d/xT2m3wrT2m3wb" "T2m3wr" = false →
          strContains "root/n/d/xT2m3wrT2m3wb" "T2m3wb" = false →
          (none : Option String) = none →
          ∀ fn art,
            (Except.ok ("n_X_r.fits",
                (⟨[("OBJNAME", "X")], [⟨[1], [2], [3], "08"⟩]⟩ : Artifact)) :
              Except ObError (String × Artifact)) ≠ Except.ok (fn, art))) :=
  ⟨rfl,
    c3_classification envBoth "n" ["08"] "root/n/d/xT2m3wrT2m3wb" none
      [Event.readHeader "root/n/d/xT2m3wrT2m3wb.p08.fits",
        Event.extract "root/n/d/xT2m3wrT2m3wb.p08.fits",
        Event.write "n_X_r.fits"]
      (some "n_X_r.fits")
      (Except.ok ("n_X_r.fits", ⟨[("OBJNAME", "X")], [⟨[1], [2], [3], "08"⟩]⟩))
      rfl⟩

/-- C4 counterexample: in envTwo the first observation's second step-file
fails to extract; the run aborts with that error and writes nothing at
all, even though processing the second key on its own succeeds — so
other discovered keys are not processed to completion. -/
theorem c4_isolation_counterexample :
    (make_extracted_stellar_cube envTwo "root" "n" ["08", "09", "10"]).2.1 =
        [] ∧
      (make_extracted_stellar_cube envTwo "root" "n" ["08", "09", "10"]).2.2 =
        some ("root/n/d/aT2m3wr",
          ObError.extractionError "root/n/d/aT2m3wr.p09.fits") ∧
      (processObs envTwo "n" ["08", "09", "10"] "root/n/d/bT2m3wr" none).2.2 =
        Except.ok ("n_X_r.fits",
          ⟨[("OBJNAME", "X")],
            [⟨[1], [2], [3], "08"⟩, ⟨[1], [2], [3], "09"⟩,
              ⟨[1], [2], [3], "10"⟩]⟩) := by
  refine ⟨?_, ?_, ?_⟩ <;> rfl

lemma runObs_err_split {env : Env} {night : String} {steps : List String}
    (obs : List String) (last : Option String) {ob : String} {e : ObError}
    (herr : (runObs env night steps obs last).2.2 = some (ob, e)) :
    ∃ pre post, obs = pre ++ ob :: post ∧
      (runObs env night steps obs last).2.1.length = pre.length := by
  induction obs generalizing last with
  | nil => simp [runObs] at herr
  | cons o rest ih =>
    simp only [runObs] at herr ⊢
    cases hp : processObs env night steps o last with
    | mk evs0 q =>
      obtain ⟨lst2, r0⟩ := q
      simp only [hp] at herr ⊢
      cases r0 with
      | error e0 =>
        simp only [Option.some.injEq, Prod.mk.injEq] at herr
        obtain ⟨rfl, rfl⟩ := herr
        exact ⟨[], rest, rfl, rfl⟩
      | ok out =>
        obtain ⟨fn0, art0⟩ := out
        simp only at herr ⊢
        obtain ⟨pre1, post1, hsplit, hlen⟩ := ih lst2 herr
        exact ⟨o :: pre1, post1, by rw [hsplit]; rfl, by simp [hlen]⟩

/-- C4 (amended): a failure on one observation key aborts the entire
remaining run, not just that observation: the failing key is reported,
exactly the keys discovered before it have written artifacts, and every
key after it is left unprocessed. -/
theorem c4_failure_aborts_run (env : Env) (root night : String)
    (s0 : String) (srest : List String) (ob : String) (e : ObError)
    (herr : (make_extracted_stellar_cube env root night (s0 :: srest)).2.2 =
      some (ob, e)) :
    ∃ pre post, uniqueObs env root night s0 = pre ++ ob :: post ∧
      (make_extracted_stellar_cube env root night (s0 :: srest)).2.1.length =
        pre.length := by
  unfold make_extracted_stellar_cube at herr ⊢
  simp only [List.head?_cons] at herr ⊢
  exact runObs_err_split (uniqueObs env root night s0) none herr

/-- C4 witness: the envTwo run aborts at its first key, so the keys
written before the failure are exactly the empty prefix. -/
theorem c4_failure_aborts_run_witness :
    (make_extracted_stellar_cube envTwo "root" "n" ["08", "09", "10"]).2.2 =
        some ("root/n/d/aT2m3wr",
          ObError.extractionError "root/n/d/aT2m3wr.p09.fits") ∧
      ∃ pre post,
        uniqueObs envTwo "root" "n" "08" = pre ++ "root/n/d/aT2m3wr" :: post ∧
        (make_extracted_stellar_cube envTwo "root" "n"
            ["08", "09", "10"]).2.1.length = pre.length :=
  ⟨rfl,
    c4_failure_aborts_run envTwo "root" "n" "08" ["09", "10"]
      "root/n/d/aT2m3wr"
      (ObError.extractionError "root/n/d/aT2m3wr.p09.fits") rfl⟩

/-- C5 counterexample: envDepth holds a first-step file directly in the
night directory and another two levels deep; both end in the first-step
suffix, yet discovery finds neither, so the resolver is not recursive. -/
theorem c5_recursive_counterexample :
    uniqueObs envDepth "root" "20190101" "08" = [] ∧
      ["root", "20190101", "obs1.T2m3wr-x.p08.fits"] ∈ envDepth.fs ∧
      ["root", "20190101", "a", "b", "f.p08.fits"] ∈ envDepth.fs ∧
      strEndsWith "obs1.T2m3wr-x.p08.fits" ("08" ++ ".fits") = true ∧
      strEndsWith "f.p08.fits" ("08" ++ ".fits") = true := by
  refine ⟨?_, ?_, ?_, ?_, ?_⟩ <;> decide

/-- C5 (amended): the resolver searches exactly one directory level below
root/night, not recursively: a path becomes an observation key (after
suffix stripping) precisely when it has the form root/night/dir/file
with a non-hidden dir and file and the file name ending in the
first-step suffix. -/
theorem c5_discovery_one_level (env : Env) (root night s0 q : String) :
    q ∈ uniqueObs env root night s0 ↔
      ∃ d f, [root, night, d, f] ∈ env.fs ∧
        strStartsWith d "." = false ∧ strStartsWith f "." = false ∧
        strEndsWith f (s0 ++ ".fits") = true ∧
        q = pyReplaceS (joinPath [root, night, d, f])
          (".p" ++ s0 ++ ".fits") "" := by
  unfold uniqueObs globFirstStep
  simp only [List.map_map, List.mem_map, List.mem_filter, Function.comp]
  constructor
  · rintro ⟨p, ⟨hmem, hpred⟩, rfl⟩
    match p, hpred with
    | [r, n, d, f], hpred =>
      simp only [Bool.and_eq_true, beq_iff_eq, Bool.not_eq_true'] at hpred
      obtain ⟨⟨⟨⟨rfl, rfl⟩, hd⟩, hf⟩, hsuf⟩ := hpred
      exact ⟨d, f, hmem, hd, hf, hsuf, rfl⟩
  · rintro ⟨d, f, hmem, hd, hf, hsuf, rfl⟩
    refine ⟨[root, night, d, f], ⟨hmem, ?_⟩, rfl⟩
    simp [Bool.and_eq_true, beq_iff_eq, Bool.not_eq_true', hd, hf, hsuf]

/-- C5 witness: a file at the one inspected depth is discovered and its
suffix-stripped path becomes an observation key. -/
theorem c5_discovery_one_level_witness :
    pyReplaceS (joinPath ["root", "20190101", "d", "obs1.T2m3wr-x.p08.fits"])
        (".p" ++ "08" ++ ".fits") "" ∈
      uniqueObs envFlat "root" "20190101" "08" :=
  (c5_discovery_one_level envFlat "root" "20190101" "08"
      (pyReplaceS (joinPath ["root", "20190101", "d", "obs1.T2m3wr-x.p08.fits"])
        (".p" ++ "08" ++ ".fits") "")).mpr
    ⟨"d", "obs1.T2m3wr-x.p08.fits", by decide, by decide, by decide, by decide,
      rfl⟩

/-! ## Lemmas about the output store -/

lemma writeAll_lastWrite_none {root night : String}
    {L : List (String × Artifact)} {k : String}
    (h : lastWrite root night L k = none) :
    ∀ s : Store, writeAll root night L s k = s k := by
  induction L with
  | nil => intro s; rfl
  | cons p rest ih =>
    obtain ⟨fn, a0⟩ := p
    intro s
    simp only [lastWrite] at h
    cases hlw : lastWrite root night rest k with
    | some b => rw [hlw] at h; cases h
    | none =>
      rw [hlw] at h
      by_cases hk : k = outPath root night fn
      · rw [if_pos hk] at h; cases h
      · rw [if_neg hk] at h
        simp only [writeAll]
        rw [ih hlw]
        simp [writeArtifact, hk]

lemma writeAll_lastWrite_some {root night : String}
    {L : List (String × Artifact)} {k : String} {a : Artifact}
    (h : lastWrite root night L k = some a) :
    ∀ s : Store, writeAll root night L s k = some a := by
  induction L with
  | nil => cases h
  | cons p rest ih =>
    obtain ⟨fn, a0⟩ := p
    intro s
    simp only [lastWrite] at h
    cases hlw : lastWrite root night rest k with
    | some b =>
      rw [hlw] at h
      simp only [Option.some.injEq] at h
      subst h
      exact ih hlw _
    | none =>
      rw [hlw] at h
      by_cases hk : k = outPath root night fn
      · rw [if_pos hk] at h
        simp only [Option.some.injEq] at h
        subst h
        simp only [writeAll]
        rw [writeAll_lastWrite_none hlw]
        simp [writeArtifact, hk]
      · rw [if_neg hk] at h; cases h

/-- C6: re-running the cube assembler on the same input is idempotent as a
store update — applying the run's writes a second time leaves the store
exactly as after the first application (the run itself is a pure function
of the environment, so its write list is identical across runs) — and
each write overwrites whatever was at its output path, latest write
winning. -/
theorem c6_rerun_idempotent (env : Env) (root night : String)
    (steps : List String) (s : Store) (k : String) :
    writeAll root night (make_extracted_stellar_cube env root night steps).2.1
        (writeAll root night
          (make_extracted_stellar_cube env root night steps).2.1 s) k =
      writeAll root night
        (make_extracted_stellar_cube env root night steps).2.1 s k ∧
      ∀ (st : Store) (p : String) (a : Artifact), writeArtifact st p a p = some a := by
  constructor
  · cases hlw : lastWrite root night
        (make_extracted_stellar_cube env root night steps).2.1 k with
    | none =>
      rw [writeAll_lastWrite_none hlw, writeAll_lastWrite_none hlw]
    | some a =>
      rw [writeAll_lastWrite_some hlw, writeAll_lastWrite_some hlw]
  · intro st p a
    simp [writeArtifact]

/-- C7: every file the ascii exporter writes is the two-column table of
the extracted series: one row per sample (row count equals the series
length), each row exactly the two numeric columns in the order
(axis, value), and nothing else — in particular no header row. -/
theorem c7_ascii_rows (env : Env) (night : String) (steps : List String)
    (path name : String) (last l2 : Option String) (fn : String)
    (rows : List (List Int))
    (hp : asciiExportFile env night steps path name last =
      (l2, Except.ok (some (fn, rows)))) :
    ∃ wave spectrum sig,
      env.extract (path ++ "/" ++ name) = some (wave, spectrum, sig) ∧
      rows = (wave.zip spectrum).map (fun p => [p.1, p.2]) ∧
      (∀ r ∈ rows, r.length = 2) ∧
      (wave.length = spectrum.length → rows.length = spectrum.length) := by
  simp only [asciiExportFile] at hp
  split at hp
  next => simp at hp
  next step hstep =>
    split at hp
    next hcond =>
      split at hp
      next => simp at hp
      next hdr hh =>
        split at hp
        next => simp at hp
        next objectid hobj =>
          split at hp
          next => simp at hp
          next run hrun =>
            split at hp
            next => simp at hp
            next wave spectrum sig hex =>
              split at hp
              next => simp at hp
              next fn0 hcf =>
                simp only [Prod.mk.injEq, Except.ok.injEq,
                  Option.some.injEq] at hp
                obtain ⟨-, -, hrows⟩ := hp
                refine ⟨wave, spectrum, sig, hex, ?_, ?_, ?_⟩
                · rw [← hrows]; rfl
                · intro r hr
                  rw [← hrows] at hr
                  simp only [savetxtTranspose, List.mem_map] at hr
                  obtain ⟨p, -, hpr⟩ := hr
                  rw [← hpr]; rfl
                · intro hlen
                  rw [← hrows]
                  simp [savetxtTranspose, List.length_zip, hlen]
    next => simp at hp

/-- C7 witness: the matching file of envAscii is exported as the
two-column table of its extracted series. -/
theorem c7_ascii_rows_witness :
    asciiExportFile envAscii "n" ["08"] "root/n" "o.T2m3wr.p08.fits" none =
        (some "n_HD_1_08_r.dat",
          Except.ok (some ("n_HD_1_08_r.dat", [[10, 3], [20, 4]]))) ∧
      ∃ wave spectrum sig,
        envAscii.extract ("root/n" ++ "/" ++ "o.T2m3wr.p08.fits") =
          some (wave, spectrum, sig) ∧
        ([[10, 3], [20, 4]] : List (List Int)) =
          (wave.zip spectrum).map (fun p => [p.1, p.2]) ∧
        (∀ r ∈ ([[10, 3], [20, 4]] : List (List Int)), r.length = 2) ∧
        (wave.length = spectrum.length →
          ([[10, 3], [20, 4]] : List (List Int)).length = spectrum.length) :=
  ⟨rfl,
    c7_ascii_rows envAscii "n" ["08"] "root/n" "o.T2m3wr.p08.fits" none
      (some "n_HD_1_08_r.dat") "n_HD_1_08_r.dat" [[10, 3], [20, 4]] rfl⟩

/-- C10: on a run whose first discovered observation key contains neither
channel marker, the assembler reads the header and extracts every step's
spectrum, and only then fails with the unbound-local output_filename
error — no defined classification error exists — aborting the run with
nothing written. -/
theorem c10_unbound_output_filename (env : Env) (night : String)
    (s0 : String) (srest : List String) (ob : String) (rest : List String)
    (hdr : Header) (objname : String)
    (hr : strContains ob "T2m3wr" = false)
    (hb : strContains ob "T2m3wb" = false)
    (hh : env.header (stepFileName ob s0) = some hdr)
    (hobj : hGet hdr "OBJNAME" = some objname)
    (hext : ∀ f ∈ (s0 :: srest).map (stepFileName ob),
      ∃ w s g, env.extract f = some (w, s, g)) :
    ∃ evs, runObs env night (s0 :: srest) (ob :: rest) none =
        (evs, [], some (ob, ObError.unboundLocal)) ∧
      ∀ f ∈ (s0 :: srest).map (stepFileName ob), Event.extract f ∈ evs := by
  have hzip : ∀ p ∈ ((s0 :: srest).map (stepFileName ob)).zip (s0 :: srest),
      ∃ w s g, env.extract p.1 = some (w, s, g) := by
    intro p hp
    obtain ⟨a, b⟩ := p
    exact hext a (List.of_mem_zip hp).1
  obtain ⟨evs1, secs, hex⟩ :=
    extractSections_all_ok (((s0 :: srest).map (stepFileName ob)).zip
      (s0 :: srest)) hzip
  obtain ⟨-, -, hev⟩ := extractSections_ok hex
  have hfst : (((s0 :: srest).map (stepFileName ob)).zip
      (s0 :: srest)).map Prod.fst = (s0 :: srest).map (stepFileName ob) :=
    List.map_fst_zip _ _ (by simp)
  rw [hfst] at hev
  refine ⟨Event.readHeader (stepFileName ob s0) :: evs1, ?_, ?_⟩
  · simp only [runObs, processObs, List.map_cons, List.head?_cons, hh, hobj]
    rw [show (stepFileName ob s0 :: List.map (stepFileName ob) srest) =
      (s0 :: srest).map (stepFileName ob) from rfl, hex]
    simp only [channelFilename, hr, hb, Bool.false_eq_true, if_false]
  · intro f hf
    exact List.mem_cons_of_mem _ (hev f hf)

/-- C10 witness: the marker-free observation of envNoMarker reaches the
naming branch only after extracting, then aborts with the unbound-local
error. -/
theorem c10_unbound_output_filename_witness :
    ∃ evs, runObs envNoMarker "n" ["08"] ["root/n/d/plain"] none =
        (evs, [], some ("root/n/d/plain", ObError.unboundLocal)) ∧
      ∀ f ∈ (["08"] : List String).map (stepFileName "root/n/d/plain"),
        Event.extract f ∈ evs :=
  c10_unbound_output_filename envNoMarker "n" "08" [] "root/n/d/plain" []
    [("OBJNAME", "X")] "X" (by decide) (by decide) rfl rfl
    (fun f _ => ⟨[1], [2], [3], rfl⟩)

end PywifesUtils
